import Mathlib

set_option autoImplicit false

/-!
Shallow embedding of the KiCad net-class constraint model
(src/pcbnew/class_netclass.h): the NETCLASS record (a named bundle of
routing/electrical parameters plus a set of member net names) and the
NETCLASSES registry (a name-keyed map of shared NETCLASS pointers with a
lazily created, process-wide Default).  wxString is modelled as String,
std::set<wxString> as a strictly sorted list of strings, std::bitset<32>
as a natural number holding the 32 flag bits, and std::shared_ptr as an
index into an explicit heap carried by a process state.
-/

namespace KiCad

/-- layerSelection is `typedef std::bitset<32>`; the claims only copy and
compare whole masks, so the 32 flag bits are carried as a natural number. -/
abbrev layerSelection := Nat

/-- Signal types known to the constraint manager (anonymous enum in
class_netclass.h, values 0..3 in declaration order). -/
def NO_TYPE : Int := 0

def POWER_TYPE : Int := 1

def SIGNAL_TYPE : Int := 2

def MIXED_TYPE : Int := 3

/-- Routing topologies known to the constraint manager (anonymous enum in
class_netclass.h, values 0..8 in declaration order). -/
def NO_SPECIAL_TOPOLOGY : Int := 0

def STAR_TOPOLOGY : Int := 1

def T_TOPOLOGY : Int := 2

def FLYBY_TOPOLOGY : Int := 3

def HORIZONTAL_TOPOLOGY : Int := 4

def VERTICAL_TOPOLOGY : Int := 5

def SIMPLE_DAISY_CHAIN_TOPOLOGY : Int := 6

def MIDDRIVEN_DAISY_CHAIN_TOPOLOGY : Int := 7

def MULTIPOINT_TOPOLOGY : Int := 8

/-- STRINGSET is `DECL_SET_FOR_SWIG( STRINGSET, wxString )`, i.e. a
`std::set<wxString>`: element-unique and iterated in ascending order of
`operator<`.  It is modelled as a list of strings whose well-formed values
are strictly sorted (see `STRINGSET.WF`). -/
abbrev STRINGSET := List String

/-- STRINGSET.insert models `std::set::insert`: the element is placed at
its ordered position, and inserting an element already present leaves the
set unchanged. -/
def STRINGSET.insert (s : STRINGSET) (x : String) : STRINGSET :=
  match s with
  | [] => [x]
  | y :: ys =>
    if x < y then x :: y :: ys
    else if x = y then y :: ys
    else y :: STRINGSET.insert ys x

/-- STRINGSET.erase models `std::set::erase(key)`: the element is removed
if present, and erasing an absent element leaves the set unchanged. -/
def STRINGSET.erase (s : STRINGSET) (x : String) : STRINGSET :=
  List.erase s x

/-- STRINGSET.WF is the representation invariant of `std::set<wxString>`:
the stored list is strictly ascending (hence duplicate-free). -/
def STRINGSET.WF (s : STRINGSET) : Prop :=
  List.Sorted (· < ·) s

instance (s : STRINGSET) : Decidable (STRINGSET.WF s) :=
  List.decidableSorted s

/-- NETCLASS (class_netclass.h lines 57-301): a collection of nets and the
parameters used to route or test these nets.  Field names follow the
header; all routing dimensions are `int` in internal units (1 nm). -/
structure NETCLASS where
  m_Name : String
  m_Description : String
  m_Members : STRINGSET
  m_Clearance : Int
  m_TrackWidth : Int
  m_ViaDia : Int
  m_ViaDrill : Int
  m_uViaDia : Int
  m_uViaDrill : Int
  m_diffPairWidth : Int
  m_diffPairGap : Int
  m_max_vias : Int
  m_topology : Int
  m_min_length : Int
  m_max_length : Int
  m_max_skew : Int
  m_stub_length : Int
  m_type : Int
  m_layer : layerSelection
deriving Repr, DecidableEq

/-- Default values used to init a NETCLASS.  Modelled from the spec: the
constants DEFAULT_CLEARANCE .. DEFAULT_TYPE are declared in the header but
defined in class_netclass.cpp, which is not under src/; the spec only says
the Default set carries library-defined default parameter values, so a
fixed placeholder value stands in (no claim depends on the values). -/
def DEFAULT_PARAM : Int := 0

/-- Default layer selection used to init a NETCLASS; placeholder for the
same reason as `DEFAULT_PARAM`. -/
def DEFAULT_LAYER_SELECTION : layerSelection := 0

/-- The name of the default NETCLASS (`static const char Default[]`).
Modelled from the spec: the initializer lives in class_netclass.cpp, not
under src/; the spec fixes the reserved name as "Default". -/
def NETCLASS.Default : String := "Default"

/-- NETCLASS constructor.  Modelled from the spec: the body is in
class_netclass.cpp, not under src/; the spec says a set is created with
the given name, empty members, and library-defined default parameters. -/
def NETCLASS.new (aName : String) : NETCLASS :=
  { m_Name := aName
    m_Description := ""
    m_Members := []
    m_Clearance := DEFAULT_PARAM
    m_TrackWidth := DEFAULT_PARAM
    m_ViaDia := DEFAULT_PARAM
    m_ViaDrill := DEFAULT_PARAM
    m_uViaDia := DEFAULT_PARAM
    m_uViaDrill := DEFAULT_PARAM
    m_diffPairWidth := DEFAULT_PARAM
    m_diffPairGap := DEFAULT_PARAM
    m_max_vias := DEFAULT_PARAM
    m_topology := DEFAULT_PARAM
    m_min_length := DEFAULT_PARAM
    m_max_length := DEFAULT_PARAM
    m_max_skew := DEFAULT_PARAM
    m_stub_length := DEFAULT_PARAM
    m_type := DEFAULT_PARAM
    m_layer := DEFAULT_LAYER_SELECTION }

/-- NETCLASS::GetName (header line 163). -/
def NETCLASS.GetName (self : NETCLASS) : String :=
  self.m_Name

/-- NETCLASS::SetName (header line 168): `m_Name = aName`. -/
def NETCLASS.SetName (self : NETCLASS) (aName : String) : NETCLASS :=
  { self with m_Name := aName }

/-- NETCLASS::GetCount (header lines 174-177): number of member nets. -/
def NETCLASS.GetCount (self : NETCLASS) : Nat :=
  self.m_Members.length

/-- NETCLASS::Clear (header lines 183-186): `m_Members.clear()`. -/
def NETCLASS.Clear (self : NETCLASS) : NETCLASS :=
  { self with m_Members := [] }

/-- NETCLASS::Add (header lines 193-196): `m_Members.insert( aNetname )`. -/
def NETCLASS.Add (self : NETCLASS) (aNetname : String) : NETCLASS :=
  { self with m_Members := STRINGSET.insert self.m_Members aNetname }

/-- NETCLASS::Remove by name (header lines 219-222):
`m_Members.erase( aName )`. -/
def NETCLASS.Remove (self : NETCLASS) (aName : String) : NETCLASS :=
  { self with m_Members := STRINGSET.erase self.m_Members aName }

/-- NETCLASS::GetDescription (header line 226). -/
def NETCLASS.GetDescription (self : NETCLASS) : String :=
  self.m_Description

/-- NETCLASS::SetDescription (header line 227). -/
def NETCLASS.SetDescription (self : NETCLASS) (aDesc : String) : NETCLASS :=
  { self with m_Description := aDesc }

/-- NETCLASS::SetParams.  Modelled from the spec: the body is in
class_netclass.cpp, not under src/; the spec says it bulk-copies every
routing/electrical parameter field (clearance through layerMask) from
`aDefaults` but explicitly excludes name, description and members. -/
def NETCLASS.SetParams (self : NETCLASS) (aDefaults : NETCLASS) : NETCLASS :=
  { self with
    m_Clearance := aDefaults.m_Clearance
    m_TrackWidth := aDefaults.m_TrackWidth
    m_ViaDia := aDefaults.m_ViaDia
    m_ViaDrill := aDefaults.m_ViaDrill
    m_uViaDia := aDefaults.m_uViaDia
    m_uViaDrill := aDefaults.m_uViaDrill
    m_diffPairWidth := aDefaults.m_diffPairWidth
    m_diffPairGap := aDefaults.m_diffPairGap
    m_max_vias := aDefaults.m_max_vias
    m_topology := aDefaults.m_topology
    m_min_length := aDefaults.m_min_length
    m_max_length := aDefaults.m_max_length
    m_max_skew := aDefaults.m_max_skew
    m_stub_length := aDefaults.m_stub_length
    m_type := aDefaults.m_type
    m_layer := aDefaults.m_layer }

/-- NETCLASSPTR is `DECL_SPTR_FOR_SWIG( NETCLASSPTR, NETCLASS )`, a
`std::shared_ptr<NETCLASS>`: modelled as an index into the heap of live
NETCLASS objects carried by `ProcessState`, so that distinct holders of
the same pointer observe the same mutable object. -/
abbrev NETCLASSPTR := Nat

/-- ProcessState carries the shared mutable objects of the model: the heap
of NETCLASS objects reachable through NETCLASSPTR indices, and the
function-local static of NETCLASSES::GetDefault (`defNetClass`), which is
one per process, not per registry — `none` before the first GetDefault
call, thereafter the heap index of the lazily constructed Default set. -/
structure ProcessState where
  heap : List NETCLASS
  defaultIdx : Option NETCLASSPTR
deriving Repr, DecidableEq

/-- heapGet dereferences a NETCLASSPTR; a dangling index (undefined
behaviour in the C++) falls back to a dummy object. -/
def heapGet (s : ProcessState) (p : NETCLASSPTR) : NETCLASS :=
  s.heap.getD p (NETCLASS.new "")

/-- heapSet overwrites the NETCLASS object a NETCLASSPTR refers to, as a
mutation `*ptr = nc` through any holder of the shared pointer would. -/
def heapSet (s : ProcessState) (p : NETCLASSPTR) (nc : NETCLASS) : ProcessState :=
  { s with heap := s.heap.set p nc }

/-- heapAlloc places a fresh NETCLASS object on the heap and returns the
pointer to it (`std::make_shared<NETCLASS>(...)`). -/
def heapAlloc (s : ProcessState) (nc : NETCLASS) : NETCLASSPTR × ProcessState :=
  (s.heap.length, { s with heap := s.heap ++ [nc] })

/-- setNameAt is NETCLASS::SetName invoked through a shared pointer:
`ptr->SetName( aName )` mutates the pointed-to object in place. -/
def setNameAt (s : ProcessState) (p : NETCLASSPTR) (aName : String) : ProcessState :=
  heapSet s p ((heapGet s p).SetName aName)

/-- NETCLASS_MAP is `DECL_MAP_FOR_SWIG( NETCLASS_MAP, wxString, NETCLASSPTR )`,
a `std::map<wxString, NETCLASSPTR>`: modelled as an association list with
pairwise-distinct keys (see `NETCLASS_MAP.WF`; no claim depends on the
map's iteration order, so the list is not kept sorted). -/
abbrev NETCLASS_MAP := List (String × NETCLASSPTR)

/-- NETCLASS_MAP.WF: a std::map holds at most one entry per key. -/
def NETCLASS_MAP.WF (m : NETCLASS_MAP) : Prop :=
  List.Pairwise (fun a b => a.1 ≠ b.1) m

/-- NETCLASSES (header lines 314-388): a container for NETCLASS instances,
holding all the netclasses except the default one in `m_NetClasses`. -/
structure NETCLASSES where
  m_NetClasses : NETCLASS_MAP
deriving Repr, DecidableEq

/-- NETCLASSES::Clear (header lines 329-332): `m_NetClasses.clear()`. -/
def NETCLASSES.Clear (_self : NETCLASSES) : NETCLASSES :=
  { m_NetClasses := [] }

/-- NETCLASSES::GetCount (header lines 346-349): the number of netclasses,
excluding the default one. -/
def NETCLASSES.GetCount (self : NETCLASSES) : Nat :=
  self.m_NetClasses.length

/-- NETCLASSES::GetDefault (header lines 355-359): returns the function-
local `static NETCLASSPTR defNetClass = std::make_shared<NETCLASS>(
NETCLASS::Default )`.  The static is initialised once per process, on the
first call, and is the same object for every NETCLASSES instance, so the
receiver is unused. -/
def NETCLASSES.GetDefault (_self : NETCLASSES) (s : ProcessState) :
    NETCLASSPTR × ProcessState :=
  match s.defaultIdx with
  | some i => (i, s)
  | none =>
    let (i, s1) := heapAlloc s (NETCLASS.new NETCLASS.Default)
    (i, { s1 with defaultIdx := some i })

/-- NETCLASSES::Find (header declaration, lines 378-384).  Modelled from
the spec: the body is in class_netclass.cpp, not under src/; the header
and spec say Find returns the NETCLASS registered under `aName` if
present, else NULL (here `none`). -/
def NETCLASSES.Find (self : NETCLASSES) (aName : String) : Option NETCLASSPTR :=
  self.m_NetClasses.lookup aName

/-- NETCLASSES::Add (header declaration, lines 361-368).  Modelled from
the spec: the body is in class_netclass.cpp, not under src/; the header
and spec say Add inserts `aNetclass` under the key of its name and returns
true iff that name was not already a key, leaving the map unchanged on
collision. -/
def NETCLASSES.Add (self : NETCLASSES) (s : ProcessState)
    (aNetclass : NETCLASSPTR) : Bool × NETCLASSES :=
  match self.Find (heapGet s aNetclass).m_Name with
  | some _ => (false, self)
  | none =>
    (true, { m_NetClasses :=
      self.m_NetClasses ++ [((heapGet s aNetclass).m_Name, aNetclass)] })

/-- NETCLASSES::Remove (header declaration, lines 370-376).  Modelled from
the spec: the body is in class_netclass.cpp, not under src/; the header
says `aNetName` may not be NETCLASS::Default, the spec that removing
"Default" must always fail; otherwise the entry is detached and returned,
or NULL when absent. -/
def NETCLASSES.Remove (self : NETCLASSES) (aNetName : String) :
    Option NETCLASSPTR × NETCLASSES :=
  if aNetName = NETCLASS.Default then (none, self)
  else
    match self.Find aNetName with
    | some p =>
      (some p, { m_NetClasses :=
        self.m_NetClasses.filter (fun kv => kv.1 ≠ aNetName) })
    | none => (none, self)

/-- ProcessState.WF: whenever the GetDefault static has been initialised,
it points at a live heap object that carries the reserved name; this holds
of the pristine process and is preserved by every operation of the model
except a direct rename of the Default object itself. -/
def ProcessState.WF (s : ProcessState) : Prop :=
  ∀ i, s.defaultIdx = some i →
    i < s.heap.length ∧ (heapGet s i).m_Name = NETCLASS.Default

/-! Helper lemmas about the `std::set<wxString>` model. -/

theorem STRINGSET.mem_insert {s : STRINGSET} {x a : String} :
    a ∈ STRINGSET.insert s x ↔ a = x ∨ a ∈ s := by
  induction s with
  | nil => simp [STRINGSET.insert]
  | cons y ys ih =>
    by_cases h1 : x < y
    · rw [STRINGSET.insert, if_pos h1]
      simp [List.mem_cons]
    · by_cases h2 : x = y
      · rw [STRINGSET.insert, if_neg h1, if_pos h2]
        subst h2
        simp only [List.mem_cons]
        tauto
      · rw [STRINGSET.insert, if_neg h1, if_neg h2]
        simp only [List.mem_cons, ih]
        tauto

theorem STRINGSET.insert_WF {s : STRINGSET} {x : String} (h : STRINGSET.WF s) :
    STRINGSET.WF (STRINGSET.insert s x) := by
  induction s with
  | nil => simp [STRINGSET.insert, STRINGSET.WF]
  | cons y ys ih =>
    rw [STRINGSET.WF, List.sorted_cons] at h
    obtain ⟨hy, hys⟩ := h
    by_cases h1 : x < y
    · rw [STRINGSET.WF, STRINGSET.insert, if_pos h1, List.sorted_cons]
      refine ⟨?_, List.sorted_cons.mpr ⟨hy, hys⟩⟩
      intro b hb
      rcases List.mem_cons.mp hb with rfl | hb
      · exact h1
      · exact lt_trans h1 (hy b hb)
    · by_cases h2 : x = y
      · rw [STRINGSET.WF, STRINGSET.insert, if_neg h1, if_pos h2, List.sorted_cons]
        exact ⟨hy, hys⟩
      · rw [STRINGSET.WF, STRINGSET.insert, if_neg h1, if_neg h2, List.sorted_cons]
        refine ⟨?_, ih hys⟩
        intro b hb
        rcases STRINGSET.mem_insert.mp hb with rfl | hb
        · exact lt_of_le_of_ne (le_of_not_lt h1) (Ne.symm h2)
        · exact hy b hb

theorem STRINGSET.insert_insert_self (s : STRINGSET) (x : String) :
    STRINGSET.insert (STRINGSET.insert s x) x = STRINGSET.insert s x := by
  induction s with
  | nil => simp [STRINGSET.insert, lt_irrefl]
  | cons y ys ih =>
    by_cases h1 : x < y
    · rw [STRINGSET.insert, if_pos h1, STRINGSET.insert, if_neg (lt_irrefl x),
        if_pos rfl]
    · by_cases h2 : x = y
      · rw [STRINGSET.insert, if_neg h1, if_pos h2, STRINGSET.insert, if_neg h1,
          if_pos h2]
      · rw [STRINGSET.insert, if_neg h1, if_neg h2, STRINGSET.insert, if_neg h1,
          if_neg h2, ih]

theorem STRINGSET.count_insert_self {s : STRINGSET} {x : String}
    (h : STRINGSET.WF s) : List.count x (STRINGSET.insert s x) = 1 :=
  List.count_eq_one_of_mem (STRINGSET.insert_WF h).nodup
    (STRINGSET.mem_insert.mpr (Or.inl rfl))

theorem STRINGSET.erase_WF {s : STRINGSET} {x : String} (h : STRINGSET.WF s) :
    STRINGSET.WF (STRINGSET.erase s x) :=
  List.Pairwise.sublist (List.erase_sublist x s) h

/-! Helper lemmas about the `std::map<wxString, NETCLASSPTR>` model. -/

theorem NETCLASS_MAP.lookup_append_none {k : String} {l1 : NETCLASS_MAP}
    (h : List.lookup k l1 = none) (l2 : NETCLASS_MAP) :
    List.lookup k (l1 ++ l2) = List.lookup k l2 := by
  induction l1 with
  | nil => simp
  | cons kv tl ih =>
    obtain ⟨k1, v1⟩ := kv
    by_cases hk : k = k1
    · rw [List.lookup_cons, hk, beq_self_eq_true] at h
      exact absurd h (by simp)
    · rw [List.lookup_cons, beq_false_of_ne hk] at h
      rw [List.cons_append, List.lookup_cons, beq_false_of_ne hk]
      exact ih h

theorem NETCLASS_MAP.lookup_append_some {k : String} {v : NETCLASSPTR}
    {l1 : NETCLASS_MAP} (h : List.lookup k l1 = some v) (l2 : NETCLASS_MAP) :
    List.lookup k (l1 ++ l2) = some v := by
  induction l1 with
  | nil => simp at h
  | cons kv tl ih =>
    obtain ⟨k1, v1⟩ := kv
    by_cases hk : k = k1
    · rw [List.lookup_cons, hk, beq_self_eq_true] at h
      rw [List.cons_append, List.lookup_cons, hk, beq_self_eq_true]
      exact h
    · rw [List.lookup_cons, beq_false_of_ne hk] at h
      rw [List.cons_append, List.lookup_cons, beq_false_of_ne hk]
      exact ih h

theorem NETCLASS_MAP.lookup_singleton_ne {k name : String} {p : NETCLASSPTR}
    (h : k ≠ name) : List.lookup k [(name, p)] = none := by
  rw [List.lookup_cons, beq_false_of_ne h]
  rfl

/-! Helper lemmas about the heap of shared NETCLASS objects. -/

theorem heapGet_set_self {s : ProcessState} {p : NETCLASSPTR} (nc : NETCLASS)
    (hp : p < s.heap.length) : heapGet (heapSet s p nc) p = nc := by
  simp [heapGet, heapSet, List.getD_eq_getElem?_getD, List.getElem?_set_self hp]

theorem heapGet_set_ne {s : ProcessState} {p q : NETCLASSPTR} (nc : NETCLASS)
    (h : p ≠ q) : heapGet (heapSet s p nc) q = heapGet s q := by
  simp [heapGet, heapSet, List.getD_eq_getElem?_getD, List.getElem?_set_ne h]

theorem heapGet_append {s : ProcessState} {q : NETCLASSPTR} (l : List NETCLASS)
    (d : Option NETCLASSPTR) (hq : q < s.heap.length) :
    heapGet { heap := s.heap ++ l, defaultIdx := d } q = heapGet s q := by
  simp [heapGet, List.getD_eq_getElem?_getD, List.getElem?_append_left hq]

/-- NETCLASSES.getdefault_spec collects what GetDefault guarantees on a
well-formed process state: the static is initialised afterwards, points
into the heap, and the object it points at carries the reserved name. -/
theorem NETCLASSES.getdefault_spec (r : NETCLASSES) (s : ProcessState)
    (h : s.WF) :
    ((NETCLASSES.GetDefault r s).2).defaultIdx =
      some (NETCLASSES.GetDefault r s).1 ∧
    (NETCLASSES.GetDefault r s).1 < ((NETCLASSES.GetDefault r s).2).heap.length ∧
    (heapGet (NETCLASSES.GetDefault r s).2
      (NETCLASSES.GetDefault r s).1).m_Name = NETCLASS.Default := by
  cases hd : s.defaultIdx with
  | some i =>
    have hi := h i hd
    simp only [NETCLASSES.GetDefault, hd]
    exact ⟨trivial, hi.1, hi.2⟩
  | none =>
    simp only [NETCLASSES.GetDefault, hd, heapAlloc]
    refine ⟨trivial, by simp, ?_⟩
    simp [heapGet, List.getD_eq_getElem?_getD, List.getElem?_concat_length,
      NETCLASS.new]

/-! Claim theorems. -/

/-- Claim C3: after S.SetParams(T) every routing/electrical parameter
field of S (clearance, track width, via diameter/drill, micro-via
diameter/drill, diff-pair width/gap, max vias, topology, min/max length,
max skew, stub length, signal type, layer mask) equals the corresponding
field of T, while S's name, description and members are exactly what they
were before the call. -/
theorem netclass_setparams_copies_params_only (s t : NETCLASS) :
    (NETCLASS.SetParams s t).m_Clearance = t.m_Clearance ∧
    (NETCLASS.SetParams s t).m_TrackWidth = t.m_TrackWidth ∧
    (NETCLASS.SetParams s t).m_ViaDia = t.m_ViaDia ∧
    (NETCLASS.SetParams s t).m_ViaDrill = t.m_ViaDrill ∧
    (NETCLASS.SetParams s t).m_uViaDia = t.m_uViaDia ∧
    (NETCLASS.SetParams s t).m_uViaDrill = t.m_uViaDrill ∧
    (NETCLASS.SetParams s t).m_diffPairWidth = t.m_diffPairWidth ∧
    (NETCLASS.SetParams s t).m_diffPairGap = t.m_diffPairGap ∧
    (NETCLASS.SetParams s t).m_max_vias = t.m_max_vias ∧
    (NETCLASS.SetParams s t).m_topology = t.m_topology ∧
    (NETCLASS.SetParams s t).m_min_length = t.m_min_length ∧
    (NETCLASS.SetParams s t).m_max_length = t.m_max_length ∧
    (NETCLASS.SetParams s t).m_max_skew = t.m_max_skew ∧
    (NETCLASS.SetParams s t).m_stub_length = t.m_stub_length ∧
    (NETCLASS.SetParams s t).m_type = t.m_type ∧
    (NETCLASS.SetParams s t).m_layer = t.m_layer ∧
    (NETCLASS.SetParams s t).m_Name = s.m_Name ∧
    (NETCLASS.SetParams s t).m_Description = s.m_Description ∧
    (NETCLASS.SetParams s t).m_Members = s.m_Members :=
  ⟨rfl, rfl, rfl, rfl, rfl, rfl, rfl, rfl, rfl, rfl, rfl, rfl, rfl, rfl,
   rfl, rfl, rfl, rfl, rfl⟩

/-- Claim C9: S.Clear() leaves S.members empty and every other field of S
(name, description and all routing/electrical parameter fields including
the layer mask) exactly as before. -/
theorem netclass_clear_members_only (s : NETCLASS) :
    (NETCLASS.Clear s).m_Members = [] ∧
    (NETCLASS.Clear s).m_Name = s.m_Name ∧
    (NETCLASS.Clear s).m_Description = s.m_Description ∧
    (NETCLASS.Clear s).m_Clearance = s.m_Clearance ∧
    (NETCLASS.Clear s).m_TrackWidth = s.m_TrackWidth ∧
    (NETCLASS.Clear s).m_ViaDia = s.m_ViaDia ∧
    (NETCLASS.Clear s).m_ViaDrill = s.m_ViaDrill ∧
    (NETCLASS.Clear s).m_uViaDia = s.m_uViaDia ∧
    (NETCLASS.Clear s).m_uViaDrill = s.m_uViaDrill ∧
    (NETCLASS.Clear s).m_diffPairWidth = s.m_diffPairWidth ∧
    (NETCLASS.Clear s).m_diffPairGap = s.m_diffPairGap ∧
    (NETCLASS.Clear s).m_max_vias = s.m_max_vias ∧
    (NETCLASS.Clear s).m_topology = s.m_topology ∧
    (NETCLASS.Clear s).m_min_length = s.m_min_length ∧
    (NETCLASS.Clear s).m_max_length = s.m_max_length ∧
    (NETCLASS.Clear s).m_max_skew = s.m_max_skew ∧
    (NETCLASS.Clear s).m_stub_length = s.m_stub_length ∧
    (NETCLASS.Clear s).m_type = s.m_type ∧
    (NETCLASS.Clear s).m_layer = s.m_layer :=
  ⟨rfl, rfl, rfl, rfl, rfl, rfl, rfl, rfl, rfl, rfl, rfl, rfl, rfl, rfl,
   rfl, rfl, rfl, rfl, rfl⟩

/-- Claim C8: after NETCLASSES::Clear() the count of non-default sets is
0, while GetDefault still returns the Default set and that set's fields
are unchanged by the Clear (Clear only empties the name-keyed map and
never touches the heap of NETCLASS objects or the shared static). -/
theorem netclasses_clear_keeps_default (r : NETCLASSES) (s : ProcessState) :
    NETCLASSES.GetCount (NETCLASSES.Clear r) = 0 ∧
    NETCLASSES.GetDefault (NETCLASSES.Clear r) s = NETCLASSES.GetDefault r s ∧
    heapGet (NETCLASSES.GetDefault (NETCLASSES.Clear r) s).2
        (NETCLASSES.GetDefault (NETCLASSES.Clear r) s).1 =
      heapGet (NETCLASSES.GetDefault r s).2 (NETCLASSES.GetDefault r s).1 :=
  ⟨rfl, rfl, rfl⟩

/-- Claim C2: GetDefault never fails and always returns a set named
"Default" (constructed with the reserved name on first access), and
Remove("Default") always fails with the not-found result and leaves the
registry unchanged, so the Default set is never detached. -/
theorem netclasses_default_protected (r r2 : NETCLASSES) (s : ProcessState)
    (h : s.WF) :
    (heapGet (NETCLASSES.GetDefault r s).2
      (NETCLASSES.GetDefault r s).1).m_Name = NETCLASS.Default ∧
    (NETCLASSES.Remove r2 NETCLASS.Default).1 = none ∧
    (NETCLASSES.Remove r2 NETCLASS.Default).2 = r2 := by
  refine ⟨(NETCLASSES.getdefault_spec r s h).2.2, ?_, ?_⟩ <;>
    simp [NETCLASSES.Remove]

/-- Witness for C2: the pristine process state satisfies the well-
formedness hypothesis, and on it GetDefault indeed yields a set named
"Default". -/
theorem netclasses_default_protected_witness :
    ProcessState.WF ⟨[], none⟩ ∧
    (heapGet (NETCLASSES.GetDefault ⟨[]⟩ ⟨[], none⟩).2
      (NETCLASSES.GetDefault ⟨[]⟩ ⟨[], none⟩).1).m_Name = NETCLASS.Default :=
  ⟨(fun _ hi => nomatch hi),
   (netclasses_default_protected ⟨[]⟩ ⟨[]⟩ ⟨[], none⟩ (fun _ hi => nomatch hi)).1⟩

/-- NETCLASSES.getdefault_of_some: once the static is initialised,
GetDefault returns the stored pointer and leaves the state alone. -/
theorem NETCLASSES.getdefault_of_some (r : NETCLASSES) (s : ProcessState)
    (p : NETCLASSPTR) (h : s.defaultIdx = some p) :
    NETCLASSES.GetDefault r s = (p, s) := by
  simp only [NETCLASSES.GetDefault, h]

/-- Claim C5: any two registries return the same single Default set —
GetDefault does not depend on the receiver, a second GetDefault call on
the mutated state returns the very same pointer without further change of
state, and a mutation of the Default object made through one registry's
pointer is read back through the other registry's GetDefault. -/
theorem netclasses_default_shared (r1 r2 : NETCLASSES) (s : ProcessState)
    (h : s.WF) (nc : NETCLASS) :
    NETCLASSES.GetDefault r1 s = NETCLASSES.GetDefault r2 s ∧
    NETCLASSES.GetDefault r2
        (heapSet (NETCLASSES.GetDefault r1 s).2
          (NETCLASSES.GetDefault r1 s).1 nc) =
      ((NETCLASSES.GetDefault r1 s).1,
       heapSet (NETCLASSES.GetDefault r1 s).2
         (NETCLASSES.GetDefault r1 s).1 nc) ∧
    heapGet (heapSet (NETCLASSES.GetDefault r1 s).2
        (NETCLASSES.GetDefault r1 s).1 nc)
      (NETCLASSES.GetDefault r1 s).1 = nc := by
  obtain ⟨hidx, hlen, _⟩ := NETCLASSES.getdefault_spec r1 s h
  have hmut : (heapSet (NETCLASSES.GetDefault r1 s).2
      (NETCLASSES.GetDefault r1 s).1 nc).defaultIdx =
      some (NETCLASSES.GetDefault r1 s).1 := hidx
  exact ⟨rfl, NETCLASSES.getdefault_of_some r2 _ _ hmut,
    heapGet_set_self nc hlen⟩

/-- Witness for C5: on the pristine process state, two distinct concrete
registries share the Default object and see each other's mutation. -/
theorem netclasses_default_shared_witness :
    ProcessState.WF ⟨[], none⟩ ∧
    heapGet (heapSet (NETCLASSES.GetDefault ⟨[]⟩ ⟨[], none⟩).2
        (NETCLASSES.GetDefault ⟨[]⟩ ⟨[], none⟩).1 (NETCLASS.new "Mutated"))
      (NETCLASSES.GetDefault ⟨[]⟩ ⟨[], none⟩).1 = NETCLASS.new "Mutated" :=
  ⟨(fun _ hi => nomatch hi),
   (netclasses_default_shared ⟨[]⟩ ⟨[("Power", 0)]⟩ ⟨[], none⟩
     (fun _ hi => nomatch hi) (NETCLASS.new "Mutated")).2.2⟩

/-- Claim C1: NETCLASSES::Add succeeds exactly when no set with the new
set's name is registered; on success it inserts the set under the key of
its name while leaving every other key's binding unchanged, and on a name
collision it returns false with the registry's map unchanged. -/
theorem netclasses_add_unique_name (r : NETCLASSES) (s : ProcessState)
    (p : NETCLASSPTR) :
    ((NETCLASSES.Add r s p).1 = true ↔
      NETCLASSES.Find r (heapGet s p).m_Name = none) ∧
    (NETCLASSES.Find r (heapGet s p).m_Name = none →
      NETCLASSES.Find (NETCLASSES.Add r s p).2 (heapGet s p).m_Name = some p ∧
      ∀ n, n ≠ (heapGet s p).m_Name →
        NETCLASSES.Find (NETCLASSES.Add r s p).2 n = NETCLASSES.Find r n) ∧
    (∀ q, NETCLASSES.Find r (heapGet s p).m_Name = some q →
      (NETCLASSES.Add r s p).1 = false ∧ (NETCLASSES.Add r s p).2 = r) := by
  cases hf : NETCLASSES.Find r (heapGet s p).m_Name with
  | none =>
    simp only [NETCLASSES.Add, hf]
    refine ⟨by simp, fun _ => ⟨?_, fun n hn => ?_⟩, fun q hq => nomatch hq⟩
    · show List.lookup (heapGet s p).m_Name
        (r.m_NetClasses ++ [((heapGet s p).m_Name, p)]) = some p
      rw [NETCLASS_MAP.lookup_append_none hf]
      rw [List.lookup_cons, beq_self_eq_true]
    · show List.lookup n (r.m_NetClasses ++ [((heapGet s p).m_Name, p)]) =
        List.lookup n r.m_NetClasses
      cases hn2 : List.lookup n r.m_NetClasses with
      | none =>
        rw [NETCLASS_MAP.lookup_append_none hn2,
          NETCLASS_MAP.lookup_singleton_ne hn]
      | some v => exact NETCLASS_MAP.lookup_append_some hn2 _
  | some q0 =>
    refine ⟨?_, fun hq => ?_, fun q hq => ?_⟩
    · simp [NETCLASSES.Add, hf]
    · exact absurd hq (by simp)
    · constructor <;> simp [NETCLASSES.Add, hf]

/-- Witness for C1: adding a concrete set named "Power" to the empty
registry succeeds and registers it under its name, and re-adding a second
set with the colliding name fails and leaves the registry unchanged. -/
theorem netclasses_add_unique_name_witness :
    NETCLASSES.Find ⟨[]⟩
      (heapGet ⟨[NETCLASS.new "Power"], none⟩ 0).m_Name = none ∧
    NETCLASSES.Find (NETCLASSES.Add ⟨[]⟩ ⟨[NETCLASS.new "Power"], none⟩ 0).2
      (heapGet ⟨[NETCLASS.new "Power"], none⟩ 0).m_Name = some 0 :=
  ⟨by decide,
   ((netclasses_add_unique_name ⟨[]⟩ ⟨[NETCLASS.new "Power"], none⟩ 0).2.1
     (by decide)).1⟩

/-- Claim C6: for every set S and net name n, S.Add(n) twice leaves
members with exactly one occurrence of n; Add is idempotent and returns
nothing, so a duplicate never signals an error. -/
theorem netclass_add_net_idempotent (nc : NETCLASS) (n : String)
    (h : STRINGSET.WF nc.m_Members) :
    NETCLASS.Add (NETCLASS.Add nc n) n = NETCLASS.Add nc n ∧
    List.count n (NETCLASS.Add (NETCLASS.Add nc n) n).m_Members = 1 := by
  constructor
  · simp [NETCLASS.Add, STRINGSET.insert_insert_self]
  · simp [NETCLASS.Add, STRINGSET.insert_insert_self,
      STRINGSET.count_insert_self h]

/-- Witness for C6: adding "GND" twice to a freshly constructed class
leaves exactly one occurrence. -/
theorem netclass_add_net_idempotent_witness :
    STRINGSET.WF (NETCLASS.new "Class1").m_Members ∧
    List.count "GND" (NETCLASS.Add (NETCLASS.Add (NETCLASS.new "Class1")
      "GND") "GND").m_Members = 1 :=
  ⟨by decide,
   (netclass_add_net_idempotent (NETCLASS.new "Class1") "GND" (by decide)).2⟩

/-- Claim C10: the member enumeration of a set yields each stored net name
exactly once in ascending lexicographic order, the representation stays
well formed under Add and Remove, and the enumeration is a pure function
of the member set's contents (two well-formed member sets with the same
elements enumerate identically). -/
theorem netclass_members_enumeration (nc nc2 : NETCLASS) (n : String)
    (h : STRINGSET.WF nc.m_Members) (h2 : STRINGSET.WF nc2.m_Members) :
    List.Sorted (· < ·) nc.m_Members ∧
    List.Nodup nc.m_Members ∧
    STRINGSET.WF (NETCLASS.Add nc n).m_Members ∧
    STRINGSET.WF (NETCLASS.Remove nc n).m_Members ∧
    ((∀ x, x ∈ nc.m_Members ↔ x ∈ nc2.m_Members) →
      nc.m_Members = nc2.m_Members) := by
  have hs : List.Sorted (· < ·) nc.m_Members := h
  have hs2 : List.Sorted (· < ·) nc2.m_Members := h2
  refine ⟨hs, hs.nodup, STRINGSET.insert_WF h, STRINGSET.erase_WF h,
    fun hmem => ?_⟩
  exact List.eq_of_perm_of_sorted
    ((List.perm_ext_iff_of_nodup hs.nodup hs2.nodup).mpr hmem) hs hs2

/-- Witness for C10: a class populated with the single net "A" has
well-formed members that enumerate without duplicates. -/
theorem netclass_members_enumeration_witness :
    STRINGSET.WF (NETCLASS.Add (NETCLASS.new "X") "A").m_Members ∧
    List.Nodup (NETCLASS.Add (NETCLASS.new "X") "A").m_Members :=
  ⟨by decide,
   (netclass_members_enumeration (NETCLASS.Add (NETCLASS.new "X") "A")
     (NETCLASS.new "Y") "C" (by decide) (by decide)).2.1⟩

/-- Claim C7: the lifecycle scenario on a concrete registry — the empty
registry counts 0; adding the set named "Power" (heap pointer 0) succeeds,
counts 1, and Find returns that very pointer; Remove detaches and returns
it, after which the count is 0 and Find reports not-found; a second Remove
again reports not-found rather than failing abnormally. -/
theorem netclasses_lifecycle_scenario :
    NETCLASSES.GetCount ⟨[]⟩ = 0 ∧
    (NETCLASSES.Add ⟨[]⟩ ⟨[NETCLASS.new "Power"], none⟩ 0).1 = true ∧
    NETCLASSES.GetCount
      (NETCLASSES.Add ⟨[]⟩ ⟨[NETCLASS.new "Power"], none⟩ 0).2 = 1 ∧
    NETCLASSES.Find
      (NETCLASSES.Add ⟨[]⟩ ⟨[NETCLASS.new "Power"], none⟩ 0).2 "Power"
      = some 0 ∧
    (NETCLASSES.Remove
      (NETCLASSES.Add ⟨[]⟩ ⟨[NETCLASS.new "Power"], none⟩ 0).2 "Power").1
      = some 0 ∧
    NETCLASSES.GetCount (NETCLASSES.Remove
      (NETCLASSES.Add ⟨[]⟩ ⟨[NETCLASS.new "Power"], none⟩ 0).2 "Power").2
      = 0 ∧
    NETCLASSES.Find (NETCLASSES.Remove
      (NETCLASSES.Add ⟨[]⟩ ⟨[NETCLASS.new "Power"], none⟩ 0).2 "Power").2
      "Power" = none ∧
    (NETCLASSES.Remove (NETCLASSES.Remove
      (NETCLASSES.Add ⟨[]⟩ ⟨[NETCLASS.new "Power"], none⟩ 0).2 "Power").2
      "Power").1 = none := by
  decide

/-- Counterexample for C4: a set registered under key "Power" is renamed
in place through NETCLASS::SetName (header line 168) while it remains
contained in the registry, so the name of a registered set does change. -/
theorem netclass_registered_name_mutable :
    NETCLASSES.Find ⟨[("Power", 0)]⟩ "Power" = some 0 ∧
    (heapGet ⟨[NETCLASS.new "Power"], none⟩ 0).m_Name = "Power" ∧
    (heapGet (setNameAt ⟨[NETCLASS.new "Power"], none⟩ 0 "Signal") 0).m_Name
      = "Signal" ∧
    ("Signal" : String) ≠ "Power" := by
  decide

/-- NETCLASSES.getdefault_heap_frame: GetDefault never modifies an
existing heap object (it at most appends the freshly constructed
Default). -/
theorem NETCLASSES.getdefault_heap_frame (r : NETCLASSES) (s : ProcessState)
    {q : NETCLASSPTR} (hq : q < s.heap.length) :
    heapGet (NETCLASSES.GetDefault r s).2 q = heapGet s q := by
  cases hd : s.defaultIdx with
  | some i => rw [NETCLASSES.getdefault_of_some r s i hd]
  | none =>
    simp only [NETCLASSES.GetDefault, hd, heapAlloc]
    exact heapGet_append [NETCLASS.new NETCLASS.Default] _ hq

/-- Amended C4: no registry operation alters the name of a registered set
— GetDefault, the only registry operation that returns a new process
state, leaves every existing heap object unchanged — but the name is not
immutable: NETCLASS::SetName mutates exactly the m_Name field of the
pointed-to set in place, touching no other set and no registry map, so a
registered set can be renamed without the registry re-keying. -/
theorem netclass_setname_frame (s : ProcessState) (p : NETCLASSPTR)
    (n : String) (r : NETCLASSES) (hp : p < s.heap.length) :
    heapGet (setNameAt s p n) p = { heapGet s p with m_Name := n } ∧
    (∀ q, q ≠ p → heapGet (setNameAt s p n) q = heapGet s q) ∧
    (setNameAt s p n).defaultIdx = s.defaultIdx ∧
    (∀ q, q < s.heap.length →
      heapGet (NETCLASSES.GetDefault r s).2 q = heapGet s q) :=
  ⟨heapGet_set_self _ hp,
   (fun _ hq => heapGet_set_ne _ (fun e => hq e.symm)),
   rfl,
   (fun _ hq => NETCLASSES.getdefault_heap_frame r s hq)⟩

/-- Witness for the amended C4: renaming the concrete registered set at
pointer 0 changes exactly its name field. -/
theorem netclass_setname_frame_witness :
    0 < (ProcessState.mk [NETCLASS.new "Power"] none).heap.length ∧
    heapGet (setNameAt ⟨[NETCLASS.new "Power"], none⟩ 0 "Signal") 0 =
      { heapGet ⟨[NETCLASS.new "Power"], none⟩ 0 with m_Name := "Signal" } :=
  ⟨by decide,
   (netclass_setname_frame ⟨[NETCLASS.new "Power"], none⟩ 0 "Signal" ⟨[]⟩
     (by decide)).1⟩

end KiCad
